import Mathlib

/-!
Verification of the RESP codec, storage engine and command dispatcher of a
minimal Redis-like server (sources: src/resp.rs, src/storage.rs, src/main.rs).

Bytes are modelled as `Nat`, Rust `Vec<u8>`, `String` and `BytesMut` as
`List Nat` (a Rust `String` is its UTF-8 byte sequence; two `String`s are
equal iff their byte sequences are), Rust `i64`/`usize` as `Int`/`Nat` with
explicit range checks and wrapping where the source casts. Fallible Rust code
returns an explicit outcome type; a Rust panic (slice out of range, index out
of bounds, `.unwrap()` failure) is the dedicated `panic` outcome.
-/

/-- Bytes of a Lean string literal; used to transcribe the ASCII string
constants of the Rust source. All constants transcribed this way are ASCII,
where `Char.toNat` coincides with the UTF-8 byte. -/
def strBytes (s : String) : List Nat := s.data.map (fun c => c.toNat)

/-- `enum RespValue` of src/resp.rs. Text of `SimpleString`/`Error` is the
byte sequence of the Rust `String`; `BulkString` carries raw bytes. -/
inductive RespValue where
  | simpleString (s : List Nat)
  | error (s : List Nat)
  | integer (i : Int)
  | bulkString (s : Option (List Nat))
  | array (a : List RespValue)

/-- Decimal digit accumulator used by the model of Rust integer formatting:
emits the decimal digits of `n` (ASCII) in front of `acc`, least significant
digit pushed first. `fuel` bounds the recursion; `n + 1` always suffices. -/
def natToDigitsCore : Nat → Nat → List Nat → List Nat
  | 0, _, acc => acc
  | fuel + 1, n, acc =>
    if n < 10 then (48 + n % 10) :: acc
    else natToDigitsCore fuel (n / 10) ((48 + n % 10) :: acc)

/-- ASCII decimal representation of a `Nat`, as produced by Rust `format!`
on an unsigned integer. -/
def natToDigits (n : Nat) : List Nat := natToDigitsCore (n + 1) n []

/-- ASCII decimal representation of an `Int`, as produced by Rust `format!`
on an `i64`: a `-` sign followed by the magnitude for negative values. -/
def intToBytes (i : Int) : List Nat :=
  if i < 0 then 45 :: natToDigits (-i).toNat else natToDigits i.toNat

/-- Value of an ASCII decimal digit byte. -/
def digitVal (c : Nat) : Option Nat :=
  if 48 ≤ c ∧ c ≤ 57 then some (c - 48) else none

/-- Fold of decimal digit bytes, most significant first; fails on the first
non-digit byte (model of the digit loop inside Rust `str::parse`). -/
def digitsToNatAux : List Nat → Nat → Option Nat
  | [], acc => some acc
  | c :: rest, acc =>
    match digitVal c with
    | some d => digitsToNatAux rest (acc * 10 + d)
    | none => none

/-- Digit-sequence value: at least one digit, all bytes digits. -/
def digitsToNatCore (l : List Nat) : Option Nat :=
  match l with
  | [] => none
  | _ :: _ => digitsToNatAux l 0

/-- Model of Rust `str::parse::<i64>` on the string's bytes: optional `+`/`-`
sign, then one or more decimal digits, value within the `i64` range
(accumulation overflow in Rust is equivalent to the final value being out of
range, since the accumulator grows monotonically). -/
def parseI64 (s : List Nat) : Option Int :=
  match s with
  | [] => none
  | c :: rest =>
    if c = 43 then
      match digitsToNatCore rest with
      | some n => if n ≤ 2 ^ 63 - 1 then some (n : Int) else none
      | none => none
    else if c = 45 then
      match digitsToNatCore rest with
      | some n => if n ≤ 2 ^ 63 then some (-(n : Int)) else none
      | none => none
    else
      match digitsToNatCore s with
      | some n => if n ≤ 2 ^ 63 - 1 then some (n : Int) else none
      | none => none

/-- Model of Rust `str::parse::<usize>`: optional `+` sign (no `-`), then one
or more decimal digits, value within the 64-bit `usize` range. -/
def parseUsize (s : List Nat) : Option Nat :=
  match s with
  | [] => none
  | c :: rest =>
    if c = 43 then
      match digitsToNatCore rest with
      | some n => if n ≤ 2 ^ 64 - 1 then some n else none
      | none => none
    else
      match digitsToNatCore s with
      | some n => if n ≤ 2 ^ 64 - 1 then some n else none
      | none => none

/-- Rust `as usize` wrapping cast from `i64` (64-bit target). -/
def i64AsUsize (i : Int) : Nat := (i % (2 : Int) ^ 64).toNat

mutual
/-- Model of Rust `String::from_utf8` validity on a byte sequence (the
standard UTF-8 well-formedness table, as checked by `core::str`). When it
holds, the resulting `String`'s bytes are exactly the input bytes, so the
conversion itself is the identity in this model. The helpers check the first
continuation byte against its (possibly restricted) range and the remaining
continuation bytes against `128..=191`. -/
def isValidUtf8 : List Nat → Bool
  | [] => true
  | c :: rest =>
    if c ≤ 127 then isValidUtf8 rest
    else if 194 ≤ c ∧ c ≤ 223 then utf8After1 128 191 rest
    else if c = 224 then utf8After2 160 191 rest
    else if (225 ≤ c ∧ c ≤ 236) ∨ c = 238 ∨ c = 239 then utf8After2 128 191 rest
    else if c = 237 then utf8After2 128 159 rest
    else if c = 240 then utf8After3 144 191 rest
    else if 241 ≤ c ∧ c ≤ 243 then utf8After3 128 191 rest
    else if c = 244 then utf8After3 128 143 rest
    else false

/-- One continuation byte in `lo..=hi`, then a fresh sequence. -/
def utf8After1 (lo hi : Nat) : List Nat → Bool
  | c1 :: rest => decide (lo ≤ c1 ∧ c1 ≤ hi) && isValidUtf8 rest
  | [] => false

/-- A continuation byte in `lo..=hi`, then one more in `128..=191`. -/
def utf8After2 (lo hi : Nat) : List Nat → Bool
  | c1 :: rest => decide (lo ≤ c1 ∧ c1 ≤ hi) && utf8After1 128 191 rest
  | [] => false

/-- A continuation byte in `lo..=hi`, then two more in `128..=191`. -/
def utf8After3 (lo hi : Nat) : List Nat → Bool
  | c1 :: rest => decide (lo ≤ c1 ∧ c1 ≤ hi) && utf8After2 128 191 rest
  | [] => false
end

/-- Position of the first two-byte window equal to CR LF, as computed by
`buffer.windows(2).position(|b| b == b"\x7d")`-style search in
`read_until_crlf` (src/resp.rs line 164; the actual pattern is CR LF). -/
def findCrlf : List Nat → Option Nat
  | [] => none
  | c :: rest =>
    match rest with
    | c2 :: _ =>
      if c = 13 ∧ c2 = 10 then some 0
      else (findCrlf rest).map (fun p => p + 1)
    | [] => none

/-- `read_until_crlf` (src/resp.rs lines 163-171): the line before the first
CR LF, and the length of line plus terminator. -/
def read_until_crlf (buffer : List Nat) : Option (List Nat × Nat) :=
  match findCrlf buffer with
  | some pos => some (buffer.take pos, pos + 2)
  | none => none

mutual
/-- `RespValue::to_bytes` (src/resp.rs lines 15-35). -/
def RespValue.to_bytes : RespValue → List Nat
  | .simpleString s => 43 :: (s ++ [13, 10])
  | .error s => 45 :: (s ++ [13, 10])
  | .integer i => 58 :: (intToBytes i ++ [13, 10])
  | .bulkString (some s) => 36 :: (natToDigits s.length ++ [13, 10] ++ s ++ [13, 10])
  | .bulkString none => [36, 45, 49, 13, 10]
  | .array a => 42 :: (natToDigits a.length ++ [13, 10] ++ RespValue.listToBytes a)

/-- Concatenation of the encodings of a list of values (the loop in the
`Array` arm of `to_bytes`). -/
def RespValue.listToBytes : List RespValue → List Nat
  | [] => []
  | v :: vs => v.to_bytes ++ RespValue.listToBytes vs
end

/-- Outcome of one decoder call. `anyhow` errors carrying an
"incomplete response" message are `incomplete`; every other `Err` is `err`;
a Rust panic is `panic`. -/
inductive ParseOut where
  | ok (p : RespValue × Nat)
  | incomplete
  | err
  | panic

/-- Outcome of the element loop of `parse_array`. -/
inductive ElemsOut where
  | ok (p : List RespValue × Nat)
  | incomplete
  | err
  | panic

/-- `parse_simple_string` (src/resp.rs lines 84-92). `line[1..len - 2]` drops
the first byte of the line (the slice start 1 exceeds the slice end when the
line is empty, which is a Rust panic), and `String::from_utf8(..)?` turns an
invalid-UTF-8 slice into a non-incomplete error. -/
def parse_simple_string (buffer : List Nat) : ParseOut :=
  match read_until_crlf buffer with
  | none => .incomplete
  | some (line, len) =>
    match line with
    | [] => .panic
    | _ :: tail =>
      if isValidUtf8 tail = true then .ok (.simpleString tail, len) else .err

/-- `parse_error` (src/resp.rs lines 94-101), same line handling as
`parse_simple_string`. -/
def parse_error (buffer : List Nat) : ParseOut :=
  match read_until_crlf buffer with
  | none => .incomplete
  | some (line, len) =>
    match line with
    | [] => .panic
    | _ :: tail =>
      if isValidUtf8 tail = true then .ok (.error tail, len) else .err

/-- `parse_integer` (src/resp.rs lines 103-111): drops the first byte of the
line like `parse_simple_string`, then parses the remainder as `i64`. -/
def parse_integer (buffer : List Nat) : ParseOut :=
  match read_until_crlf buffer with
  | none => .incomplete
  | some (line, len) =>
    match line with
    | [] => .panic
    | _ :: tail =>
      if isValidUtf8 tail = true then
        match parseI64 tail with
        | some i => .ok (.integer i, len)
        | none => .err
      else .err

/-- `parse_bulk_string` (src/resp.rs lines 113-134): the whole line
(`line[0..len - 2]`) is the declared length; a declared length of `-1` is the
null bulk string; otherwise exactly `string_len` payload bytes are sliced out
(after an `as usize` wrapping cast) and the reported consumed length is
`total_len + 1`. The slice end `total_len` is checked against the buffer, so
the trailing terminator bytes are neither validated nor required to be
present. -/
def parse_bulk_string (buffer : List Nat) : ParseOut :=
  match read_until_crlf buffer with
  | none => .incomplete
  | some (line, len) =>
    if isValidUtf8 line = true then
      match parseI64 line with
      | none => .err
      | some string_len =>
        if string_len = -1 then .ok (.bulkString none, len)
        else
          let total_len := len + i64AsUsize string_len
          if buffer.length < total_len then .incomplete
          else .ok (.bulkString (some ((buffer.drop len).take (i64AsUsize string_len))), total_len + 1)
    else .err

mutual
/-- `parse_single` (src/resp.rs lines 72-82), recursion bounded by `fuel`
(the reported element lengths make every recursion cycle consume buffer
bytes, so `buffer.length + 1` fuel always suffices; the fuel-exhausted arm is
unreachable from `parse_single` below). The `println!` on line 73 unwraps
`String::from_utf8` of the whole buffer, so a non-UTF-8 buffer panics before
anything is parsed; `buffer[0]` panics on an empty buffer. -/
def parseSingleF : Nat → List Nat → ParseOut
  | 0, _ => .panic
  | fuel + 1, buffer =>
    if isValidUtf8 buffer = true then
      match buffer with
      | [] => .panic
      | b :: rest =>
        if b = 43 then parse_simple_string rest
        else if b = 45 then parse_error rest
        else if b = 58 then parse_integer rest
        else if b = 36 then parse_bulk_string rest
        else if b = 42 then parseArrayF fuel rest
        else .err
    else .panic

/-- `parse_array` (src/resp.rs lines 136-161): the whole line is the declared
count; count `-1` yields an empty array consuming only the header; otherwise
the element loop runs `count.toNat` times (a Rust `0..n` range over a
negative `n` other than `-1` is empty) starting after the header, and the
reported consumed length is the header length plus the loop's total. -/
def parseArrayF : Nat → List Nat → ParseOut
  | 0, _ => .panic
  | fuel + 1, buffer =>
    match read_until_crlf buffer with
    | none => .incomplete
    | some (line, len) =>
      if isValidUtf8 line = true then
        match parseI64 line with
        | none => .err
        | some count =>
          if count = -1 then .ok (.array [], len)
          else
            match parseElemsF fuel count.toNat (buffer.drop len) with
            | .ok (vs, tot) => .ok (.array vs, len + tot)
            | .incomplete => .incomplete
            | .err => .err
            | .panic => .panic
      else .err

/-- The `for _ in 0..array_len` loop of `parse_array`: parses one element,
then re-slices with `buf = &buf[len + 2..]` — a Rust panic when `len + 2`
exceeds the remaining buffer (this slice runs even on the last iteration).
Returns the sum of the per-element `len + 2` contributions added to
`total_len`. -/
def parseElemsF : Nat → Nat → List Nat → ElemsOut
  | 0, _, _ => .panic
  | _ + 1, 0, _ => .ok ([], 0)
  | fuel + 1, m + 1, buf =>
    match parseSingleF fuel buf with
    | .ok (v, len) =>
      if len + 2 ≤ buf.length then
        match parseElemsF fuel m (buf.drop (len + 2)) with
        | .ok (vs, tot) => .ok (v :: vs, (len + 2) + tot)
        | .incomplete => .incomplete
        | .err => .err
        | .panic => .panic
      else .panic
    | .incomplete => .incomplete
    | .err => .err
    | .panic => .panic
end

/-- The decoder entry point `parse_single` applied to a buffer, with enough
fuel for the recursion. -/
def parse_single (buffer : List Nat) : ParseOut := parseSingleF (buffer.length + 1) buffer

/-- `struct Data` of src/storage.rs: one keyspace entry. The `Instant`
creation time is modelled as a monotonic clock reading in milliseconds. -/
structure Data where
  value : RespValue
  created : Nat
  expiry : Option Nat

/-- `struct Storage` of src/storage.rs. The `HashMap<String, Data>` is
modelled extensionally as a map from the key string's bytes to entries. -/
structure Storage where
  data : List Nat → Option Data

/-- `Storage::new`. -/
def Storage.new : Storage := ⟨fun _ => none⟩

/-- `Storage::set` (src/storage.rs lines 24-34): unconditional insert with
`created` taken as the current instant `now`. -/
def Storage.set (self : Storage) (now : Nat) (key : List Nat) (value : RespValue)
    (expiry : Option Nat) : Storage :=
  ⟨fun k => if k = key then some ⟨value, now, expiry⟩ else self.data k⟩

/-- `Storage::get` (src/storage.rs lines 36-47): on access, if an expiry is
set and `created.elapsed() > expiry` (strictly greater; `elapsed` is
`now - created` under a monotonic clock), the entry is removed and `None`
returned; otherwise a clone of the value is returned. Returns the updated
storage alongside the result. -/
def Storage.get (self : Storage) (now : Nat) (key : List Nat) :
    Option RespValue × Storage :=
  match self.data key with
  | none => (none, self)
  | some d =>
    match d.expiry with
    | some expiry =>
      if now - d.created > expiry then
        (none, ⟨fun k => if k = key then none else self.data k⟩)
      else (some d.value, self)
    | none => (some d.value, self)

/-- `struct Settings` of src/main.rs. -/
structure Settings where
  port : Nat
  replicaof : Option (List Nat)

/-- ASCII lowercasing, byte by byte. Models `str::to_ascii_lowercase`
exactly; also used for `String::to_lowercase`, whose additional Unicode
case mappings are not modelled (every command-name comparison in the source
is against an ASCII literal). -/
def asciiLower (l : List Nat) : List Nat :=
  l.map (fun c => if 65 ≤ c ∧ c ≤ 90 then c + 32 else c)

/-- Outcome of `parse_command`: the lowercased command name and argument
values, an `anyhow` error (replied to the client as an `Error` value by
`handle_connection`), or a panic. -/
inductive CmdOut where
  | ok (command : List Nat) (args : List RespValue)
  | error (msg : List Nat)
  | panic

/-- Stand-in text for the `Display` output of a `FromUtf8Error`; no claim
depends on this message's exact wording. -/
def utf8ErrMsg : List Nat := strBytes ("invalid utf-8")

/-- `parse_command` (src/main.rs lines 161-174): requires an `Array` request;
`a.first().unwrap()` panics on an empty array; the first element must be a
non-null `BulkString` whose bytes are valid UTF-8, and is lowercased to name
the command; the remaining elements are the arguments. -/
def parse_command : RespValue → CmdOut
  | .array a =>
    match a with
    | [] => .panic
    | first :: rest =>
      match first with
      | .bulkString (some s) =>
        if isValidUtf8 s = true then .ok (asciiLower s) rest
        else .error utf8ErrMsg
      | _ => .error (strBytes ("Expected bulk string"))
  | _ => .error (strBytes ("Expected array"))

/-- `handle_command` (src/main.rs lines 176-253), as a function of the
storage state and the current instant `now` (milliseconds): returns the reply
value and the updated storage, or `none` where the Rust code panics (the
`.unwrap()` calls on `String::from_utf8` of argument/key bytes and on
`parse::<usize>` of the TTL, and the `args.first().unwrap()`/`args[0]`
indexing on missing arguments). -/
def handle_command (command : List Nat) (args : List RespValue) (storage : Storage)
    (settings : Settings) (now : Nat) : Option (RespValue × Storage) :=
  if command = strBytes ("ping") then
    some (.simpleString (strBytes ("PONG")), storage)
  else if command = strBytes ("echo") then
    match args with
    | [] => none
    | a :: _ => some (a, storage)
  else if command = strBytes ("set") then
    match args with
    | [key, value] =>
      if isValidUtf8 key.to_bytes = true then
        some (.simpleString (strBytes ("OK")), storage.set now key.to_bytes value none)
      else none
    | [key, value, .bulkString (some argument), .bulkString (some expiry)] =>
      if isValidUtf8 argument = true then
        if asciiLower argument = strBytes ("px") then
          if isValidUtf8 expiry = true then
            match parseUsize expiry with
            | some n =>
              if isValidUtf8 key.to_bytes = true then
                some (.simpleString (strBytes ("OK")),
                  storage.set now key.to_bytes value (some n))
              else none
            | none => none
          else none
        else some (.error (strBytes ("unknown argument")), storage)
      else none
    | _ => some (.error (strBytes ("wrong number of arguments")), storage)
  else if command = strBytes ("get") then
    match args with
    | [] => none
    | key :: _ =>
      if isValidUtf8 key.to_bytes = true then
        match storage.get now key.to_bytes with
        | (some v, st) => some (v, st)
        | (none, st) => some (.bulkString none, st)
      else none
  else if command = strBytes ("info") then
    match args with
    | [] => some (.bulkString (some (strBytes ("# Server\nversion:0.0.1\n"))), storage)
    | [.bulkString (some key)] =>
      if isValidUtf8 key = true then
        if asciiLower key = strBytes ("replication") then
          some (.bulkString (some (strBytes ("# Replication\nrole:")
            ++ (match settings.replicaof with
                | some _ => strBytes ("slave")
                | none => strBytes ("master"))
            ++ strBytes ("\nmaster_replid:8371b4fb1155b71f4a04d3e1bc3e18c4a990aeeb\nmaster_repl_offset:0\n"))),
            storage)
        else some (.error (strBytes ("unknown argument")), storage)
      else none
    | _ => some (.error (strBytes ("wrong number of arguments")), storage)
  else if command = strBytes ("replconf") then
    some (.bulkString (some (strBytes ("OK"))), storage)
  else if command = strBytes ("psync") then
    some (.bulkString (some (strBytes ("+FULLRESYNC 8371b4fb1155b71f4a04d3e1bc3e18c4a990aeeb 0\n"))),
      storage)
  else some (.error (strBytes ("unknown command")), storage)

/-- Value of an ASCII hex digit byte (`u8::from_str_radix(_, 16)` on one
character). -/
def hexDigitVal (c : Nat) : Option Nat :=
  if 48 ≤ c ∧ c ≤ 57 then some (c - 48)
  else if 97 ≤ c ∧ c ≤ 102 then some (c - 87)
  else if 65 ≤ c ∧ c ≤ 70 then some (c - 55)
  else none

/-- `decode_hex_string` (src/main.rs lines 104-113): consumes two hex digits
per output byte. An odd-length input makes the Rust slice `&str[i..i + 2]`
panic; that case and a non-hex digit both collapse to `none` here (the one
call site unwraps the result, so both are fatal there). -/
def decode_hex_string : List Nat → Option (List Nat)
  | [] => some []
  | a :: b :: rest =>
    match hexDigitVal a, hexDigitVal b with
    | some va, some vb =>
      match decode_hex_string rest with
      | some tail => some ((16 * va + vb) :: tail)
      | none => none
    | _, _ => none
  | [_] => none

/-- The hardcoded empty-RDB hex constant of src/main.rs line 136. -/
def hardcodedEmptyRdbHex : List Nat :=
  strBytes ("524544495330303131fa0972656469732d76657205372e322e30fa0a72656469732d62697473c040fa056374696d65c26d08bc65fa08757365642d6d656dc2b0c41000fa08616f662d62617365c000fff06e3bfec0ff5aa2")

/-- Bytes written to the connection for one successfully parsed request, per
the loop of `handle_connection` (src/main.rs lines 125-157): the reply is
computed first; if the (lowercased) command is `psync`, the raw snapshot
frame `$<len>\x0d\x0a<rdb bytes>` (no trailing terminator) is written BEFORE
the encoded reply value. `none` where the Rust code panics. -/
def connectionOutput (command : List Nat) (args : List RespValue) (storage : Storage)
    (settings : Settings) (now : Nat) : Option (List Nat × Storage) :=
  match handle_command command args storage settings now with
  | none => none
  | some (res, st) =>
    if asciiLower command = strBytes ("psync") then
      match decode_hex_string hardcodedEmptyRdbHex with
      | some rdb =>
        some ((36 :: (natToDigits rdb.length ++ [13, 10])) ++ rdb ++ res.to_bytes, st)
      | none => none
    else some (res.to_bytes, st)

/-- One full dispatch of a decoded request value: `parse_command` then
`connectionOutput`; a `parse_command` error is written back as an encoded
`Error` value (src/main.rs line 153); a panic kills the connection task with
nothing written. -/
def dispatchRequest (value : RespValue) (storage : Storage) (settings : Settings)
    (now : Nat) : Option (List Nat × Storage) :=
  match parse_command value with
  | .ok command args => connectionOutput command args storage settings now
  | .error msg => some ((RespValue.error msg).to_bytes, storage)
  | .panic => none

theorem natToDigitsCore_acc (fuel : Nat) :
    ∀ n acc, natToDigitsCore fuel n acc = natToDigitsCore fuel n [] ++ acc := by
  induction fuel with
  | zero => intro n acc; simp [natToDigitsCore]
  | succ fuel ih =>
    intro n acc
    by_cases h : n < 10
    · simp [natToDigitsCore, h]
    · simp only [natToDigitsCore, if_neg h]
      rw [ih (n / 10) ((48 + n % 10) :: acc), ih (n / 10) [48 + n % 10]]
      simp

theorem natToDigitsCore_mem (fuel : Nat) :
    ∀ n acc c, (∀ x ∈ acc, 48 ≤ x ∧ x ≤ 57) → c ∈ natToDigitsCore fuel n acc →
      48 ≤ c ∧ c ≤ 57 := by
  induction fuel with
  | zero => intro n acc c hacc hc; exact hacc c hc
  | succ fuel ih =>
    intro n acc c hacc hc
    have hmod : n % 10 < 10 := Nat.mod_lt n (by omega)
    by_cases h : n < 10
    · simp only [natToDigitsCore, if_pos h, List.mem_cons] at hc
      rcases hc with h1 | h2
      · omega
      · exact hacc c h2
    · simp only [natToDigitsCore, if_neg h] at hc
      refine ih (n / 10) _ c ?_ hc
      intro x hx
      rcases List.mem_cons.mp hx with h1 | h2
      · omega
      · exact hacc x h2

theorem natToDigits_mem (n c : Nat) (hc : c ∈ natToDigits n) : 48 ≤ c ∧ c ≤ 57 :=
  natToDigitsCore_mem (n + 1) n [] c (by simp) hc

theorem natToDigits_ne_nil (n : Nat) : natToDigits n ≠ [] := by
  unfold natToDigits natToDigitsCore
  by_cases h : n < 10
  · simp [h]
  · rw [if_neg h, natToDigitsCore_acc]
    simp

theorem digitsToNatAux_append (l1 l2 : List Nat) : ∀ a,
    digitsToNatAux (l1 ++ l2) a =
      match digitsToNatAux l1 a with
      | some b => digitsToNatAux l2 b
      | none => none := by
  induction l1 with
  | nil => intro a; simp [digitsToNatAux]
  | cons c rest ih =>
    intro a
    simp only [List.cons_append, digitsToNatAux]
    cases h : digitVal c with
    | some d => simp only [h]; exact ih (a * 10 + d)
    | none => simp only [h]

theorem natToDigitsCore_spec (fuel : Nat) : ∀ n a, n < 10 ^ fuel →
    ∃ k, digitsToNatAux (natToDigitsCore fuel n []) a = some (a * 10 ^ k + n) := by
  induction fuel with
  | zero =>
    intro n a hn
    simp only [pow_zero, Nat.lt_one_iff] at hn
    subst hn
    exact ⟨0, by simp [natToDigitsCore, digitsToNatAux]⟩
  | succ fuel ih =>
    intro n a hn
    have hmod : n % 10 < 10 := Nat.mod_lt n (by omega)
    have hd : digitVal (48 + n % 10) = some (n % 10) := by
      simp only [digitVal, if_pos (by omega : 48 ≤ 48 + n % 10 ∧ 48 + n % 10 ≤ 57),
        Option.some.injEq]
      omega
    by_cases h : n < 10
    · refine ⟨1, ?_⟩
      simp only [natToDigitsCore, if_pos h, digitsToNatAux, hd]
      have : n % 10 = n := Nat.mod_eq_of_lt h
      rw [this, pow_one]
    · simp only [natToDigitsCore, if_neg h]
      rw [natToDigitsCore_acc]
      have hn' : n / 10 < 10 ^ fuel := by
        rw [Nat.div_lt_iff_lt_mul (by norm_num : (0 : Nat) < 10)]
        calc n < 10 ^ (fuel + 1) := hn
          _ = 10 ^ fuel * 10 := pow_succ 10 fuel
      obtain ⟨k, hk⟩ := ih (n / 10) a hn'
      refine ⟨k + 1, ?_⟩
      rw [digitsToNatAux_append, hk]
      simp only [digitsToNatAux, hd, Option.some.injEq]
      have hp : a * 10 ^ (k + 1) = a * 10 ^ k * 10 := by ring
      rw [hp]
      generalize a * 10 ^ k = e
      omega

theorem digitsToNat_natToDigits (n : Nat) : digitsToNatCore (natToDigits n) = some n := by
  have hb : n < 10 ^ (n + 1) :=
    lt_of_lt_of_le (Nat.lt_pow_self (by norm_num) n)
      (Nat.pow_le_pow_right (by norm_num) (Nat.le_succ n))
  obtain ⟨k, hk⟩ := natToDigitsCore_spec (n + 1) n 0 hb
  have hk' : digitsToNatAux (natToDigits n) 0 = some n := by
    have : natToDigits n = natToDigitsCore (n + 1) n [] := rfl
    rw [this, hk]
    simp
  cases hl : natToDigits n with
  | nil => exact absurd hl (natToDigits_ne_nil n)
  | cons c rest =>
    rw [hl] at hk'
    simpa [digitsToNatCore] using hk'

theorem parseI64_natToDigits (n : Nat) (h : n < 2 ^ 63) :
    parseI64 (natToDigits n) = some (n : Int) := by
  cases hl : natToDigits n with
  | nil => exact absurd hl (natToDigits_ne_nil n)
  | cons c rest =>
    have hc : 48 ≤ c ∧ c ≤ 57 := natToDigits_mem n c (hl ▸ List.mem_cons_self c rest)
    have hd := digitsToNat_natToDigits n
    rw [hl] at hd
    have h63 : n ≤ 2 ^ 63 - 1 := Nat.le_pred_of_lt h
    simp only [parseI64, if_neg (by omega : ¬ c = 43), if_neg (by omega : ¬ c = 45), hd,
      if_pos h63]

theorem i64AsUsize_natCast (n : Nat) (h : n < 2 ^ 63) : i64AsUsize (n : Int) = n := by
  unfold i64AsUsize
  rw [Int.emod_eq_of_lt (by positivity)
    (by exact_mod_cast lt_trans h (by norm_num) : (n : Int) < (2 : Int) ^ 64)]
  simp

theorem isValidUtf8_of_ascii : ∀ l : List Nat, (∀ c ∈ l, c < 128) → isValidUtf8 l = true := by
  intro l
  induction l with
  | nil => intro _; rfl
  | cons c rest ih =>
    intro h
    have hc : c ≤ 127 := by have := h c (List.mem_cons_self c rest); omega
    rw [isValidUtf8.eq_def]
    simp only
    rw [if_pos hc]
    exact ih (fun x hx => h x (List.mem_cons_of_mem c hx))

theorem natToDigits_ascii (n : Nat) : ∀ c ∈ natToDigits n, c < 128 := by
  intro c hc
  have := natToDigits_mem n c hc
  omega

theorem intToBytes_mem (i : Int) (c : Nat) (hc : c ∈ intToBytes i) :
    c = 45 ∨ (48 ≤ c ∧ c ≤ 57) := by
  unfold intToBytes at hc
  by_cases h : i < 0
  · rw [if_pos h] at hc
    rcases List.mem_cons.mp hc with h1 | h2
    · exact Or.inl h1
    · exact Or.inr (natToDigits_mem _ c h2)
  · rw [if_neg h] at hc
    exact Or.inr (natToDigits_mem _ c hc)

theorem findCrlf_of_not_mem : ∀ l : List Nat, ¬ 13 ∈ l → findCrlf l = none := by
  intro l
  induction l with
  | nil => intro _; rfl
  | cons c rest ih =>
    intro h
    have hc : c ≠ 13 := fun hceq => h (hceq ▸ List.mem_cons_self c rest)
    cases rest with
    | nil => rw [findCrlf.eq_def]
    | cons c2 rest2 =>
      rw [findCrlf.eq_def]
      simp only
      rw [if_neg (fun hand => hc hand.1),
        ih (fun hm => h (List.mem_cons_of_mem c hm))]
      rfl

theorem findCrlf_append_cr : ∀ l : List Nat, ¬ 13 ∈ l → findCrlf (l ++ [13]) = none := by
  intro l
  induction l with
  | nil => intro _; rfl
  | cons c rest ih =>
    intro h
    have hc : c ≠ 13 := fun hceq => h (hceq ▸ List.mem_cons_self c rest)
    cases rest with
    | nil =>
      rw [findCrlf.eq_def]
      simp only [List.cons_append, List.nil_append]
      rw [if_neg (fun hand => hc hand.1)]
      rfl
    | cons c2 rest2 =>
      rw [List.cons_append, findCrlf.eq_def]
      simp only [List.cons_append]
      rw [if_neg (fun hand => hc hand.1)]
      have ih2 := ih (fun hm => h (List.mem_cons_of_mem c hm))
      rw [List.cons_append] at ih2
      rw [ih2]
      rfl

theorem findCrlf_append_crlf : ∀ l r : List Nat, ¬ 13 ∈ l →
    findCrlf (l ++ 13 :: 10 :: r) = some l.length := by
  intro l
  induction l with
  | nil => intro r _; rw [findCrlf.eq_def]; simp
  | cons c rest ih =>
    intro r h
    have hc : c ≠ 13 := fun hceq => h (hceq ▸ List.mem_cons_self c rest)
    cases rest with
    | nil =>
      rw [List.cons_append, List.nil_append, findCrlf.eq_def]
      simp only
      rw [if_neg (fun hand => hc hand.1)]
      rw [findCrlf.eq_def]
      simp
    | cons c2 rest2 =>
      rw [List.cons_append, findCrlf.eq_def]
      simp only [List.cons_append]
      rw [if_neg (fun hand => hc hand.1)]
      have ih2 := ih r (fun hm => h (List.mem_cons_of_mem c hm))
      rw [List.cons_append] at ih2
      rw [ih2]
      simp

theorem read_until_crlf_append (l r : List Nat) (h : ¬ 13 ∈ l) :
    read_until_crlf (l ++ 13 :: 10 :: r) = some (l, l.length + 2) := by
  unfold read_until_crlf
  rw [findCrlf_append_crlf l r h]
  have ht : (l ++ 13 :: 10 :: r).take l.length = l := List.take_left l (13 :: 10 :: r)
  simp only
  rw [ht]

theorem findCrlf_take_none (s : List Nat) (m : Nat) (h13 : ¬ 13 ∈ s)
    (hm : m ≤ s.length + 1) : findCrlf ((s ++ [13, 10]).take m) = none := by
  rcases Nat.lt_or_ge m (s.length + 1) with h | h
  · have hm' : m ≤ s.length := by omega
    rw [List.take_append_eq_append_take, Nat.sub_eq_zero_of_le hm']
    simp only [List.take_zero, List.append_nil]
    exact findCrlf_of_not_mem _ (fun hmem => h13 (List.take_subset m s hmem))
  · have hm' : m = s.length + 1 := by omega
    subst hm'
    rw [List.take_append_eq_append_take, List.take_of_length_le (by omega)]
    have h1 : s.length + 1 - s.length = 1 := by omega
    rw [h1]
    simp only [List.take_succ_cons, List.take_zero]
    exact findCrlf_append_cr s h13

theorem read_until_crlf_take_none (s : List Nat) (m : Nat) (h13 : ¬ 13 ∈ s)
    (hm : m ≤ s.length + 1) : read_until_crlf ((s ++ [13, 10]).take m) = none := by
  unfold read_until_crlf
  rw [findCrlf_take_none s m h13 hm]

theorem parse_single_cons (b : Nat) (rest : List Nat)
    (hU : isValidUtf8 (b :: rest) = true) :
    parse_single (b :: rest) =
      if b = 43 then parse_simple_string rest
      else if b = 45 then parse_error rest
      else if b = 58 then parse_integer rest
      else if b = 36 then parse_bulk_string rest
      else if b = 42 then parseArrayF (rest.length + 1) rest
      else .err := by
  unfold parse_single
  simp only [List.length_cons]
  rw [parseSingleF.eq_def]
  simp only [hU, if_pos]

theorem parse_bulk_spec (n : Nat) (s junk : List Nat) (hn : n = s.length)
    (hmax : n < 2 ^ 63) :
    parse_bulk_string (natToDigits n ++ 13 :: 10 :: (s ++ junk))
      = .ok (.bulkString (some s), (natToDigits n).length + 2 + n + 1) := by
  have h13 : ¬ 13 ∈ natToDigits n := fun hm => by
    have := natToDigits_mem n 13 hm; omega
  unfold parse_bulk_string
  rw [read_until_crlf_append _ _ h13]
  simp only
  rw [isValidUtf8_of_ascii _ (natToDigits_ascii n), if_pos rfl,
    parseI64_natToDigits n hmax]
  simp only
  rw [if_neg (by omega : ¬ (n : Int) = -1)]
  rw [i64AsUsize_natCast n hmax]
  have hlen : (natToDigits n ++ 13 :: 10 :: (s ++ junk)).length
      = (natToDigits n).length + 2 + (s.length + junk.length) := by
    simp [List.length_append]
    omega
  rw [if_neg (by rw [hlen]; omega)]
  have hdrop : (natToDigits n ++ 13 :: 10 :: (s ++ junk)).drop ((natToDigits n).length + 2)
      = s ++ junk := by
    have h1 : natToDigits n ++ 13 :: 10 :: (s ++ junk)
        = (natToDigits n ++ [13, 10]) ++ (s ++ junk) := by simp
    rw [h1]
    have h2 : (natToDigits n).length + 2 = (natToDigits n ++ [13, 10]).length := by
      simp
    rw [h2, List.drop_left]
  rw [hdrop]
  have htake : (s ++ junk).take n = s := by
    subst hn
    exact List.take_left s junk
  rw [htake]

theorem parse_single_bulk (n : Nat) (s junk : List Nat) (hn : n = s.length)
    (hmax : n < 2 ^ 63)
    (hU : isValidUtf8 (36 :: (natToDigits n ++ 13 :: 10 :: (s ++ junk))) = true) :
    parse_single (36 :: (natToDigits n ++ 13 :: 10 :: (s ++ junk)))
      = .ok (.bulkString (some s), (natToDigits n).length + 2 + n + 1) := by
  rw [parse_single_cons 36 _ hU]
  rw [if_neg (by decide), if_neg (by decide), if_neg (by decide), if_pos rfl]
  exact parse_bulk_spec n s junk hn hmax

theorem parse_single_null_array (rest : List Nat)
    (hU : isValidUtf8 (42 :: 45 :: 49 :: 13 :: 10 :: rest) = true) :
    parse_single (42 :: 45 :: 49 :: 13 :: 10 :: rest) = .ok (.array [], 4) := by
  rw [parse_single_cons 42 _ hU]
  rw [if_neg (by decide), if_neg (by decide), if_neg (by decide), if_neg (by decide),
    if_pos rfl]
  rw [parseArrayF.eq_def]
  simp only [List.length_cons]
  have hr : read_until_crlf (45 :: 49 :: 13 :: 10 :: rest) = some ([45, 49], 4) := by
    have h := read_until_crlf_append [45, 49] rest (by decide)
    simpa using h
  rw [hr]
  simp only
  rw [show isValidUtf8 [45, 49] = true from rfl, if_pos rfl]
  rw [show parseI64 [45, 49] = some (-1) from rfl]
  simp

theorem parse_simple_string_prefix (s : List Nat) (m : Nat) (h13 : ¬ 13 ∈ s)
    (hm : m ≤ s.length + 1) :
    parse_simple_string ((s ++ [13, 10]).take m) = .incomplete := by
  unfold parse_simple_string
  rw [read_until_crlf_take_none s m h13 hm]

theorem parse_error_prefix (s : List Nat) (m : Nat) (h13 : ¬ 13 ∈ s)
    (hm : m ≤ s.length + 1) :
    parse_error ((s ++ [13, 10]).take m) = .incomplete := by
  unfold parse_error
  rw [read_until_crlf_take_none s m h13 hm]

theorem parse_integer_prefix (s : List Nat) (m : Nat) (h13 : ¬ 13 ∈ s)
    (hm : m ≤ s.length + 1) :
    parse_integer ((s ++ [13, 10]).take m) = .incomplete := by
  unfold parse_integer
  rw [read_until_crlf_take_none s m h13 hm]

theorem parse_single_prefix_incomplete (bb : Nat) (t : List Nat) (m : Nat)
    (hbb : bb = 43 ∨ bb = 45 ∨ bb = 58)
    (hA : ∀ c ∈ t, c < 128) (h13 : ¬ 13 ∈ t) (hm : m ≤ t.length + 1) :
    parse_single ((bb :: (t ++ [13, 10])).take (m + 1)) = .incomplete := by
  rw [List.take_succ_cons]
  have hP : ∀ c ∈ bb :: (t ++ [13, 10]).take m, c < 128 := by
    intro c hc
    rcases List.mem_cons.mp hc with h1 | h2
    · omega
    · have hsub := List.take_subset m (t ++ [13, 10]) h2
      rcases List.mem_append.mp hsub with h3 | h4
      · exact hA c h3
      · simp only [List.mem_cons, List.mem_singleton] at h4
        rcases h4 with h5 | h5 | h5 <;> first | omega | simp at h5
  rw [parse_single_cons bb _ (isValidUtf8_of_ascii _ hP)]
  rcases hbb with h | h | h <;> subst h
  · rw [if_pos rfl]
    exact parse_simple_string_prefix t m h13 hm
  · rw [if_neg (by decide), if_pos rfl]
    exact parse_error_prefix t m h13 hm
  · rw [if_neg (by decide), if_neg (by decide), if_pos rfl]
    exact parse_integer_prefix t m h13 hm

/-- C1: the round-trip `decode(encode v) = (v, |encode v|)` FAILS already for
`SimpleStatus "OK"` (whose text has no embedded terminator): the decoder
drops the first character of the status text and the reported consumed count
excludes the leading type byte. -/
theorem c1_roundtrip_counterexample :
    (RespValue.simpleString [79, 75]).to_bytes = [43, 79, 75, 13, 10]
    ∧ parse_single [43, 79, 75, 13, 10] = .ok (.simpleString [75], 4)
    ∧ RespValue.simpleString [75] ≠ RespValue.simpleString [79, 75]
    ∧ (4 : Nat) ≠ (RespValue.simpleString [79, 75]).to_bytes.length := by
  refine ⟨rfl, rfl, ?_, by decide⟩
  intro h
  injection h with h2
  exact absurd h2 (by decide)

/-- C1 (amended): the round-trip holds only for BulkBytes values, and with a
consumed count short of the full encoding: for `BulkBytes(Some s)` with a
UTF-8-valid encoding (the decoder's debug print requires this), decoding the
encoding yields the value back with consumed count `|encode| - 2`; for
`BulkBytes(None)` the count is `|encode| - 1`. -/
theorem c1_bulk_roundtrip_amended (s : List Nat)
    (hU : isValidUtf8 ((RespValue.bulkString (some s)).to_bytes) = true)
    (hmax : s.length < 2 ^ 63) :
    parse_single ((RespValue.bulkString (some s)).to_bytes)
      = .ok (.bulkString (some s), (RespValue.bulkString (some s)).to_bytes.length - 2)
    ∧ parse_single ((RespValue.bulkString none).to_bytes)
      = .ok (.bulkString none, (RespValue.bulkString none).to_bytes.length - 1) := by
  constructor
  · have hform : (RespValue.bulkString (some s)).to_bytes
        = 36 :: (natToDigits s.length ++ 13 :: 10 :: (s ++ [13, 10])) := by
      simp [RespValue.to_bytes]
    rw [hform] at hU ⊢
    rw [parse_single_bulk s.length s [13, 10] rfl hmax hU]
    have hlen : (36 :: (natToDigits s.length ++ 13 :: 10 :: (s ++ [13, 10]))).length
        = (natToDigits s.length).length + s.length + 5 := by
      simp [List.length_append]
      omega
    rw [hlen]
    have harith : (natToDigits s.length).length + 2 + s.length + 1
        = (natToDigits s.length).length + s.length + 5 - 2 := by omega
    rw [harith]
  · rfl

/-- C1 witness: the amended round-trip at the concrete payload `foo`. -/
theorem c1_amended_witness :
    parse_single ((RespValue.bulkString (some [102, 111, 111])).to_bytes)
      = .ok (.bulkString (some [102, 111, 111]),
          (RespValue.bulkString (some [102, 111, 111])).to_bytes.length - 2) :=
  (c1_bulk_roundtrip_amended [102, 111, 111] (by decide) (by decide)).1

/-- C2: decoding strict prefixes of a valid encoding does NOT always yield
"incomplete": the empty prefix panics (`buffer[0]` on an empty buffer); the
7-byte strict prefix of the 9-byte encoding of `BulkBytes(Some "foo")`
decodes successfully (the trailing terminator is neither required nor
checked); and the 4-byte strict prefix `*1\x0d\x0a` of an Aggregate encoding
panics (the element loop indexes into an empty buffer). -/
theorem c2_prefix_counterexample :
    parse_single [] = .panic
    ∧ ((RespValue.bulkString (some [102, 111, 111])).to_bytes).take 7
        = [36, 51, 13, 10, 102, 111, 111]
    ∧ 7 < ((RespValue.bulkString (some [102, 111, 111])).to_bytes).length
    ∧ parse_single [36, 51, 13, 10, 102, 111, 111]
        = .ok (.bulkString (some [102, 111, 111]), 7)
    ∧ ((RespValue.array [.bulkString (some [97])]).to_bytes).take 4 = [42, 49, 13, 10]
    ∧ 4 < ((RespValue.array [.bulkString (some [97])]).to_bytes).length
    ∧ parse_single [42, 49, 13, 10] = .panic :=
  ⟨rfl, rfl, by decide, rfl, rfl, by decide, rfl⟩

/-- C2 (amended): the incomplete-detection property does hold for the
line-framed scalar variants: for SimpleStatus/ErrorStatus text that is ASCII
and CR-free, and for every Integer, decoding any nonempty strict prefix of
the encoding yields "incomplete". (It fails for the empty prefix, for
BulkBytes prefixes that already contain the payload, and for mid-Aggregate
prefixes, per the counterexample.) -/
theorem c2_prefix_incomplete_amended (s : List Nat) (hA : ∀ c ∈ s, c < 128)
    (h13 : ¬ 13 ∈ s) :
    (∀ k, 0 < k → k < (RespValue.simpleString s).to_bytes.length →
      parse_single ((RespValue.simpleString s).to_bytes.take k) = .incomplete)
    ∧ (∀ k, 0 < k → k < (RespValue.error s).to_bytes.length →
      parse_single ((RespValue.error s).to_bytes.take k) = .incomplete)
    ∧ (∀ (i : Int) (k : Nat), 0 < k → k < (RespValue.integer i).to_bytes.length →
      parse_single ((RespValue.integer i).to_bytes.take k) = .incomplete) := by
  refine ⟨?_, ?_, ?_⟩
  · intro k hk hlen
    obtain ⟨m, rfl⟩ : ∃ m, k = m + 1 := ⟨k - 1, by omega⟩
    have hform : (RespValue.simpleString s).to_bytes = 43 :: (s ++ [13, 10]) := by
      simp [RespValue.to_bytes]
    rw [hform] at hlen ⊢
    have hm : m ≤ s.length + 1 := by
      simp [List.length_append] at hlen
      omega
    exact parse_single_prefix_incomplete 43 s m (Or.inl rfl) hA h13 hm
  · intro k hk hlen
    obtain ⟨m, rfl⟩ : ∃ m, k = m + 1 := ⟨k - 1, by omega⟩
    have hform : (RespValue.error s).to_bytes = 45 :: (s ++ [13, 10]) := by
      simp [RespValue.to_bytes]
    rw [hform] at hlen ⊢
    have hm : m ≤ s.length + 1 := by
      simp [List.length_append] at hlen
      omega
    exact parse_single_prefix_incomplete 45 s m (Or.inr (Or.inl rfl)) hA h13 hm
  · intro i k hk hlen
    obtain ⟨m, rfl⟩ : ∃ m, k = m + 1 := ⟨k - 1, by omega⟩
    have hform : (RespValue.integer i).to_bytes = 58 :: (intToBytes i ++ [13, 10]) := by
      simp [RespValue.to_bytes]
    rw [hform] at hlen ⊢
    have hAi : ∀ c ∈ intToBytes i, c < 128 := by
      intro c hc
      rcases intToBytes_mem i c hc with h | h <;> omega
    have h13i : ¬ 13 ∈ intToBytes i := by
      intro hc
      rcases intToBytes_mem i 13 hc with h | h <;> omega
    have hm : m ≤ (intToBytes i).length + 1 := by
      simp [List.length_append] at hlen
      omega
    exact parse_single_prefix_incomplete 58 (intToBytes i) m
      (Or.inr (Or.inr rfl)) hAi h13i hm

/-- C2 witness: nonempty strict prefixes of concrete scalar encodings decode
to "incomplete". -/
theorem c2_amended_witness :
    parse_single ((RespValue.simpleString [79]).to_bytes.take 2) = .incomplete
    ∧ parse_single ((RespValue.error [79]).to_bytes.take 1) = .incomplete
    ∧ parse_single ((RespValue.integer 7).to_bytes.take 2) = .incomplete := by
  have h := c2_prefix_incomplete_amended [79] (by decide) (by decide)
  exact ⟨h.1 2 (by decide) (by decide), h.2.1 1 (by decide) (by decide),
    h.2.2 7 2 (by decide) (by decide)⟩

/-- C6: the consumed count reported for a BulkBytes decode is NOT
`header + payload + 2`: for the bytes `$3\x0d\x0afooXY`, decoding succeeds
with payload `foo` (the two trailing bytes are arbitrary and unvalidated)
but reports 7 bytes consumed where the claim predicts `4 + 3 + 2 = 9`. -/
theorem c6_count_counterexample :
    parse_single [36, 51, 13, 10, 102, 111, 111, 88, 89]
      = .ok (.bulkString (some [102, 111, 111]), 7)
    ∧ (7 : Nat) ≠ 4 + 3 + 2 := ⟨rfl, by decide⟩

/-- C6 (amended): decoding `$<n>\x0d\x0a` followed by exactly `n` payload
bytes takes the payload by its declared length and never compares the two
following bytes against the terminator — it succeeds both with any two
trailing bytes whose presence keeps the whole buffer valid UTF-8 (the
decoder's debug print unwraps `from_utf8` of the entire buffer before
parsing, so non-UTF-8 trailing bytes panic there) and with NO trailing bytes
at all — and in both cases it consumes `digits + 2 + n + 1` bytes counted
after the type byte: one more than header-plus-payload, i.e. one SHORT of
also consuming the two-byte terminator the claim describes. -/
theorem c6_bulk_lenient_amended (n : Nat) (s : List Nat)
    (hn : n = s.length) (hmax : n < 2 ^ 63) :
    (∀ x y : Nat, isValidUtf8 (36 :: (natToDigits n ++ 13 :: 10 :: (s ++ [x, y]))) = true →
      parse_single (36 :: (natToDigits n ++ 13 :: 10 :: (s ++ [x, y])))
        = .ok (.bulkString (some s), (natToDigits n).length + 2 + n + 1))
    ∧ (isValidUtf8 (36 :: (natToDigits n ++ 13 :: 10 :: s)) = true →
      parse_single (36 :: (natToDigits n ++ 13 :: 10 :: s))
        = .ok (.bulkString (some s), (natToDigits n).length + 2 + n + 1)) := by
  constructor
  · intro x y hU
    exact parse_single_bulk n s [x, y] hn hmax hU
  · intro hU
    have h := parse_single_bulk n s [] hn hmax (by simpa using hU)
    simpa using h

/-- C6 witness: the amended statement at payload `foo`, once with trailing
bytes `XY` and once with the trailing bytes absent. -/
theorem c6_amended_witness :
    parse_single (36 :: (natToDigits 3 ++ 13 :: 10 :: ([102, 111, 111] ++ [88, 89])))
      = .ok (.bulkString (some [102, 111, 111]), (natToDigits 3).length + 2 + 3 + 1)
    ∧ parse_single (36 :: (natToDigits 3 ++ 13 :: 10 :: [102, 111, 111]))
      = .ok (.bulkString (some [102, 111, 111]), (natToDigits 3).length + 2 + 3 + 1) :=
  ⟨(c6_bulk_lenient_amended 3 [102, 111, 111] (by decide) (by decide)).1 88 89 (by decide),
   (c6_bulk_lenient_amended 3 [102, 111, 111] (by decide) (by decide)).2 (by decide)⟩

/-- C8: decoding a buffer that starts with the Aggregate header `*-1` plus
terminator yields the empty Aggregate value (consuming the 4 header bytes
after the type byte) — not an error and not a distinct null variant. -/
theorem c8_null_array (rest : List Nat)
    (hU : isValidUtf8 (42 :: 45 :: 49 :: 13 :: 10 :: rest) = true) :
    parse_single (42 :: 45 :: 49 :: 13 :: 10 :: rest) = .ok (.array [], 4) :=
  parse_single_null_array rest hU

/-- C8 witness: the exact wire bytes `*-1` plus terminator decode to the
empty Aggregate. -/
theorem c8_null_array_witness :
    parse_single [42, 45, 49, 13, 10] = .ok (.array [], 4) :=
  c8_null_array [] (by decide)

/-- C4: expiry is NOT enforced at `elapsed >= T`: with TTL 5 and elapsed time
exactly 5, `get` still returns the stored value (the code tests
`elapsed > expiry`, strictly), where the claim requires absent. -/
theorem c4_expiry_counterexample :
    ((Storage.new.set 0 [107] (RespValue.bulkString (some [118])) (some 5)).get 5 [107]).1
      = some (RespValue.bulkString (some [118])) := rfl

/-- C4 (amended): after `set(k, v, ttl = T)` at time `t0`, a `get` at time
`t1` returns `v` (leaving storage unchanged) whenever `t1 - t0 ≤ T`, and for
`t1 - t0 > T` returns absent, deletes the entry, and every subsequent `get`
of `k` (at any time) remains absent — the boundary is strict `>`, not the
claimed `≥`. -/
theorem storage_set_data_self (st : Storage) (now : Nat) (k : List Nat)
    (v : RespValue) (e : Option Nat) :
    (st.set now k v e).data k = some ⟨v, now, e⟩ := by
  unfold Storage.set
  simp

theorem c4_expiry_amended (st : Storage) (k : List Nat) (v : RespValue)
    (T t0 t1 : Nat) :
    (t1 - t0 ≤ T →
      (st.set t0 k v (some T)).get t1 k = (some v, st.set t0 k v (some T)))
    ∧ (t1 - t0 > T →
      ((st.set t0 k v (some T)).get t1 k).1 = none
      ∧ (((st.set t0 k v (some T)).get t1 k).2).data k = none
      ∧ ∀ t2 : Nat, ((((st.set t0 k v (some T)).get t1 k).2).get t2 k).1 = none) := by
  have hget : (st.set t0 k v (some T)).get t1 k
      = if t1 - t0 > T then
          (none, ⟨fun kk => if kk = k then none else (st.set t0 k v (some T)).data kk⟩)
        else (some v, st.set t0 k v (some T)) := by
    unfold Storage.get
    rw [storage_set_data_self]
  constructor
  · intro h
    rw [hget, if_neg (by omega : ¬ t1 - t0 > T)]
  · intro h
    rw [hget, if_pos h]
    refine ⟨rfl, by simp, ?_⟩
    intro t2
    unfold Storage.get
    simp

/-- C4 witness: TTL 5, read at elapsed 3 (present) and elapsed 7 (absent,
deleted, still absent at a later read). -/
theorem c4_amended_witness :
    ((Storage.new.set 0 [107] (RespValue.integer 9) (some 5)).get 3 [107])
      = (some (RespValue.integer 9), Storage.new.set 0 [107] (RespValue.integer 9) (some 5))
    ∧ ((Storage.new.set 0 [107] (RespValue.integer 9) (some 5)).get 7 [107]).1 = none
    ∧ ((((Storage.new.set 0 [107] (RespValue.integer 9) (some 5)).get 7 [107]).2).get 11 [107]).1
        = none := by
  refine ⟨(c4_expiry_amended Storage.new [107] (RespValue.integer 9) 5 0 3).1 (by decide),
    ((c4_expiry_amended Storage.new [107] (RespValue.integer 9) 5 0 7).2 (by decide)).1,
    ((c4_expiry_amended Storage.new [107] (RespValue.integer 9) 5 0 7).2
      (by decide)).2.2 11⟩

/-- C9: `set(k, ...)` and `get(k)` touch no key other than `k`: the entry of
every distinct key `k'` is unchanged by `set` (unconditional insert of `k`
only) and by `get` (which at most deletes `k` itself on expiry). -/
theorem c9_frame (st : Storage) (now : Nat) (k kp : List Nat) (v : RespValue)
    (e : Option Nat) (hne : kp ≠ k) :
    ((st.set now k v e).data kp = st.data kp)
    ∧ (((st.get now k).2).data kp = st.data kp) := by
  constructor
  · unfold Storage.set
    simp [hne]
  · unfold Storage.get
    cases h : st.data k with
    | none => rfl
    | some d =>
      simp only
      cases hd : d.expiry with
      | none => rfl
      | some exp =>
        simp only
        by_cases ht : now - d.created > exp
        · rw [if_pos ht]
          simp [hne]
        · rw [if_neg ht]

/-- C9 witness: a `set` of key `[2]` and a `get` of key `[2]` leave the entry
of key `[3]` unchanged. -/
theorem c9_frame_witness :
    ((Storage.new.set 0 [2] (RespValue.integer 1) none).data [3] = Storage.new.data [3])
    ∧ (((Storage.new.get 0 [2]).2).data [3] = Storage.new.data [3]) :=
  c9_frame Storage.new 0 [2] [3] (RespValue.integer 1) none (by decide)

theorem handle_set_two (k v : RespValue) (st : Storage) (stg : Settings) (now : Nat)
    (hU : isValidUtf8 k.to_bytes = true) :
    handle_command (strBytes ("set")) [k, v] st stg now
      = some (.simpleString (strBytes ("OK")), st.set now k.to_bytes v none) := by
  unfold handle_command
  rw [if_neg (by decide), if_neg (by decide), if_pos rfl]
  simp only
  rw [hU, if_pos rfl]

theorem handle_set_three (k v w : RespValue) (st : Storage) (stg : Settings) (now : Nat) :
    handle_command (strBytes ("set")) [k, v, w] st stg now
      = some (.error (strBytes ("wrong number of arguments")), st) := by
  unfold handle_command
  rw [if_neg (by decide), if_neg (by decide), if_pos rfl]
  simp only

theorem handle_set_unknown (k v : RespValue) (arg exp : List Nat) (st : Storage)
    (stg : Settings) (now : Nat) (h1 : isValidUtf8 arg = true)
    (h2 : asciiLower arg ≠ strBytes ("px")) :
    handle_command (strBytes ("set")) [k, v, .bulkString (some arg), .bulkString (some exp)]
        st stg now
      = some (.error (strBytes ("unknown argument")), st) := by
  unfold handle_command
  rw [if_neg (by decide), if_neg (by decide), if_pos rfl]
  simp only
  rw [h1, if_pos rfl, if_neg h2]

theorem handle_set_px (k v : RespValue) (arg exp : List Nat) (n : Nat) (st : Storage)
    (stg : Settings) (now : Nat) (h1 : isValidUtf8 arg = true)
    (h2 : asciiLower arg = strBytes ("px")) (h3 : isValidUtf8 exp = true)
    (h4 : parseUsize exp = some n) (h5 : isValidUtf8 k.to_bytes = true) :
    handle_command (strBytes ("set")) [k, v, .bulkString (some arg), .bulkString (some exp)]
        st stg now
      = some (.simpleString (strBytes ("OK")), st.set now k.to_bytes v (some n)) := by
  unfold handle_command
  rw [if_neg (by decide), if_neg (by decide), if_pos rfl]
  simp only
  rw [h1, if_pos rfl, if_pos h2, h3, if_pos rfl, h4]
  simp only
  rw [h5, if_pos rfl]

theorem handle_set_px_badttl (k v : RespValue) (arg exp : List Nat) (st : Storage)
    (stg : Settings) (now : Nat) (h1 : isValidUtf8 arg = true)
    (h2 : asciiLower arg = strBytes ("px")) (h3 : isValidUtf8 exp = true)
    (h4 : parseUsize exp = none) :
    handle_command (strBytes ("set")) [k, v, .bulkString (some arg), .bulkString (some exp)]
        st stg now = none := by
  unfold handle_command
  rw [if_neg (by decide), if_neg (by decide), if_pos rfl]
  simp only
  rw [h1, if_pos rfl, if_pos h2, h3, if_pos rfl, h4]

theorem handle_get_eq (key : RespValue) (st : Storage) (stg : Settings) (now : Nat)
    (hU : isValidUtf8 key.to_bytes = true) :
    handle_command (strBytes ("get")) [key] st stg now
      = (match st.get now key.to_bytes with
        | (some v, st2) => some (v, st2)
        | (none, st2) => some (.bulkString none, st2)) := by
  unfold handle_command
  rw [if_neg (by decide), if_neg (by decide), if_neg (by decide), if_pos rfl]
  simp only
  rw [hU, if_pos rfl]

theorem handle_echo_empty (st : Storage) (stg : Settings) (now : Nat) :
    handle_command (strBytes ("echo")) [] st stg now = none := by
  unfold handle_command
  rw [if_neg (by decide), if_pos rfl]

theorem handle_get_empty (st : Storage) (stg : Settings) (now : Nat) :
    handle_command (strBytes ("get")) [] st stg now = none := by
  unfold handle_command
  rw [if_neg (by decide), if_neg (by decide), if_neg (by decide), if_pos rfl]

/-- C3: malformed arguments do NOT always produce an ErrorStatus reply: a SET
whose PX TTL does not parse panics (`parse::<usize>().unwrap()`), and a
request whose Aggregate is empty panics (`a.first().unwrap()`), instead of
replying an error. -/
theorem c3_malformed_counterexample :
    handle_command (strBytes ("set"))
        [.bulkString (some [107]), .bulkString (some [118]),
          .bulkString (some (strBytes ("px"))), .bulkString (some (strBytes ("abc")))]
        Storage.new ⟨6379, none⟩ 0 = none
    ∧ parse_command (.array []) = .panic := ⟨rfl, rfl⟩

/-- C3 (amended): only SOME malformed-argument shapes are replied as
ErrorStatus values — a three-argument SET (wrong count) and a SET with an
unknown bulk sub-argument are; but malformed arguments do not generally
yield an ErrorStatus: a SET whose PX TTL does not parse as a non-negative
integer, a request whose Aggregate is empty, a zero-argument ECHO, and a
zero-argument GET all panic, killing the connection task instead of
replying. -/
theorem c3_malformed_args_amended :
    (∀ (k v w : RespValue) (st : Storage) (stg : Settings) (now : Nat),
      handle_command (strBytes ("set")) [k, v, w] st stg now
        = some (.error (strBytes ("wrong number of arguments")), st))
    ∧ (∀ (k v : RespValue) (arg exp : List Nat) (st : Storage) (stg : Settings) (now : Nat),
      isValidUtf8 arg = true → asciiLower arg ≠ strBytes ("px") →
      handle_command (strBytes ("set"))
          [k, v, .bulkString (some arg), .bulkString (some exp)] st stg now
        = some (.error (strBytes ("unknown argument")), st))
    ∧ parse_command (.array []) = .panic
    ∧ (∀ (k v : RespValue) (exp : List Nat) (st : Storage) (stg : Settings) (now : Nat),
      isValidUtf8 exp = true → parseUsize exp = none →
      handle_command (strBytes ("set"))
          [k, v, .bulkString (some (strBytes ("px"))), .bulkString (some exp)] st stg now
        = none)
    ∧ (∀ (st : Storage) (stg : Settings) (now : Nat),
      handle_command (strBytes ("echo")) [] st stg now = none)
    ∧ (∀ (st : Storage) (stg : Settings) (now : Nat),
      handle_command (strBytes ("get")) [] st stg now = none) :=
  ⟨handle_set_three,
   fun k v arg exp st stg now h1 h2 => handle_set_unknown k v arg exp st stg now h1 h2,
   rfl,
   fun k v exp st stg now h3 h4 =>
     handle_set_px_badttl k v (strBytes ("px")) exp st stg now (by decide) (by decide) h3 h4,
   handle_echo_empty,
   handle_get_empty⟩

/-- C3 witness: concrete malformed requests — a three-argument SET, an
unknown sub-argument `xx`, an unparsable TTL `abc`, a zero-argument ECHO and
a zero-argument GET. -/
theorem c3_amended_witness :
    handle_command (strBytes ("set"))
        [.integer 1, .integer 2, .integer 3] Storage.new ⟨6379, none⟩ 0
      = some (.error (strBytes ("wrong number of arguments")), Storage.new)
    ∧ handle_command (strBytes ("set"))
        [.integer 1, .integer 2, .bulkString (some (strBytes ("xx"))),
          .bulkString (some (strBytes ("5")))] Storage.new ⟨6379, none⟩ 0
      = some (.error (strBytes ("unknown argument")), Storage.new)
    ∧ handle_command (strBytes ("set"))
        [.integer 1, .integer 2, .bulkString (some (strBytes ("px"))),
          .bulkString (some (strBytes ("abc")))] Storage.new ⟨6379, none⟩ 0 = none
    ∧ handle_command (strBytes ("echo")) [] Storage.new ⟨6379, none⟩ 0 = none
    ∧ handle_command (strBytes ("get")) [] Storage.new ⟨6379, none⟩ 0 = none :=
  ⟨c3_malformed_args_amended.1 (.integer 1) (.integer 2) (.integer 3) Storage.new ⟨6379, none⟩ 0,
   c3_malformed_args_amended.2.1 (.integer 1) (.integer 2) (strBytes ("xx"))
     (strBytes ("5")) Storage.new ⟨6379, none⟩ 0 (by decide) (by decide),
   c3_malformed_args_amended.2.2.2.1 (.integer 1) (.integer 2) (strBytes ("abc"))
     Storage.new ⟨6379, none⟩ 0 (by decide) (by decide),
   c3_malformed_args_amended.2.2.2.2.1 Storage.new ⟨6379, none⟩ 0,
   c3_malformed_args_amended.2.2.2.2.2 Storage.new ⟨6379, none⟩ 0⟩

/-- C5: the SET reply is NOT decided by argument shape alone: a 2-argument
SET whose key's wire encoding is not valid UTF-8 panics
(`String::from_utf8(key.to_bytes()).unwrap()`) instead of replying OK. -/
theorem c5_set_counterexample :
    handle_command (strBytes ("set")) [.bulkString (some [255]), .bulkString (some [118])]
        Storage.new ⟨6379, none⟩ 0 = none := rfl

/-- C5 (amended): provided the key's wire encoding is valid UTF-8 (and the
PX TTL parses), the SET reply is decided by the argument shape: 2 arguments
reply OK; 4 bulk arguments with case-insensitive `PX` reply OK; 3 arguments
reply the wrong-arity error; 4 bulk arguments with third argument `XX` reply
the unknown-argument error. -/
theorem c5_set_arity_amended :
    (∀ (k v : RespValue) (st : Storage) (stg : Settings) (now : Nat),
      isValidUtf8 k.to_bytes = true →
      handle_command (strBytes ("set")) [k, v] st stg now
        = some (.simpleString (strBytes ("OK")), st.set now k.to_bytes v none))
    ∧ (∀ (k v : RespValue) (arg exp : List Nat) (n : Nat) (st : Storage) (stg : Settings)
        (now : Nat),
      isValidUtf8 k.to_bytes = true → isValidUtf8 arg = true → isValidUtf8 exp = true →
      asciiLower arg = strBytes ("px") → parseUsize exp = some n →
      handle_command (strBytes ("set"))
          [k, v, .bulkString (some arg), .bulkString (some exp)] st stg now
        = some (.simpleString (strBytes ("OK")), st.set now k.to_bytes v (some n)))
    ∧ (∀ (k v w : RespValue) (st : Storage) (stg : Settings) (now : Nat),
      handle_command (strBytes ("set")) [k, v, w] st stg now
        = some (.error (strBytes ("wrong number of arguments")), st))
    ∧ (∀ (k v : RespValue) (exp : List Nat) (st : Storage) (stg : Settings) (now : Nat),
      handle_command (strBytes ("set"))
          [k, v, .bulkString (some (strBytes ("XX"))), .bulkString (some exp)] st stg now
        = some (.error (strBytes ("unknown argument")), st)) :=
  ⟨fun k v st stg now hU => handle_set_two k v st stg now hU,
   fun k v arg exp n st stg now h5 h1 h3 h2 h4 =>
     handle_set_px k v arg exp n st stg now h1 h2 h3 h4 h5,
   handle_set_three,
   fun k v exp st stg now =>
     handle_set_unknown k v (strBytes ("XX")) exp st stg now (by decide) (by decide)⟩

/-- C5 witness: the four SET argument shapes at concrete arguments. -/
theorem c5_amended_witness :
    handle_command (strBytes ("set")) [.bulkString (some [107]), .integer 7]
        Storage.new ⟨6379, none⟩ 0
      = some (.simpleString (strBytes ("OK")),
          Storage.new.set 0 (RespValue.bulkString (some [107])).to_bytes (.integer 7) none)
    ∧ handle_command (strBytes ("set"))
        [.bulkString (some [107]), .integer 7, .bulkString (some (strBytes ("Px"))),
          .bulkString (some (strBytes ("100")))] Storage.new ⟨6379, none⟩ 0
      = some (.simpleString (strBytes ("OK")),
          Storage.new.set 0 (RespValue.bulkString (some [107])).to_bytes (.integer 7)
            (some 100)) :=
  ⟨c5_set_arity_amended.1 (.bulkString (some [107])) (.integer 7) Storage.new
      ⟨6379, none⟩ 0 (by decide),
   c5_set_arity_amended.2.1 (.bulkString (some [107])) (.integer 7) (strBytes ("Px"))
      (strBytes ("100")) 100 Storage.new ⟨6379, none⟩ 0 (by decide) (by decide) (by decide)
      (by decide) (by decide)⟩

/-- Discriminator: is a value a SimpleString (RESP status line)? -/
def RespValue.isSimpleStatus : RespValue → Bool
  | .simpleString _ => true
  | _ => false

/-- The decoded hardcoded empty-RDB snapshot payload (88 bytes). -/
def rdbPayload : List Nat := (decode_hex_string hardcodedEmptyRdbHex).getD []

/-- C7: the PSYNC reply is NOT a SimpleStatus line: the dispatcher wraps the
text `+FULLRESYNC <replid> 0` (with a bare LF) inside a BulkBytes value, so
the wire carries a bulk string, not a status line. -/
theorem c7_psync_counterexample :
    (handle_command (strBytes ("psync")) [] Storage.new ⟨6379, none⟩ 0).map (fun p => p.1)
      = some (.bulkString
          (some (strBytes ("+FULLRESYNC 8371b4fb1155b71f4a04d3e1bc3e18c4a990aeeb 0\n"))))
    ∧ RespValue.isSimpleStatus
        (.bulkString
          (some (strBytes ("+FULLRESYNC 8371b4fb1155b71f4a04d3e1bc3e18c4a990aeeb 0\n"))))
      = false := ⟨rfl, rfl⟩

/-- C7 (amended): for every request whose command name lowercases to
`psync`, the connection writes the length-prefixed raw snapshot frame
`$<len>\x0d\x0a<88 rdb bytes>` FIRST and then the encoded reply, and the
reply is a BulkBytes value whose payload is the ASCII text
`+FULLRESYNC 8371b4fb1155b71f4a04d3e1bc3e18c4a990aeeb 0` plus a bare LF. -/
theorem c7_psync_amended (w : List Nat) (args : List RespValue) (st : Storage)
    (stg : Settings) (now : Nat) (hU : isValidUtf8 w = true)
    (hw : asciiLower w = strBytes ("psync")) :
    dispatchRequest (.array (.bulkString (some w) :: args)) st stg now
      = some ((36 :: (natToDigits rdbPayload.length ++ [13, 10])) ++ rdbPayload
          ++ (RespValue.bulkString
              (some (strBytes ("+FULLRESYNC 8371b4fb1155b71f4a04d3e1bc3e18c4a990aeeb 0\n")))).to_bytes,
          st) := by
  have hdec : decode_hex_string hardcodedEmptyRdbHex = some rdbPayload := rfl
  unfold dispatchRequest parse_command
  simp only
  rw [hU, if_pos rfl, hw]
  simp only
  unfold connectionOutput handle_command
  rw [if_neg (by decide), if_neg (by decide), if_neg (by decide), if_neg (by decide),
    if_neg (by decide), if_neg (by decide), if_pos rfl]
  simp only
  rw [if_pos (by decide : asciiLower (strBytes ("psync")) = strBytes ("psync")), hdec]

/-- C7 witness: a concrete uppercase `PSYNC` request. -/
theorem c7_amended_witness :
    dispatchRequest (.array [.bulkString (some (strBytes ("PSYNC")))])
        Storage.new ⟨6379, none⟩ 0
      = some ((36 :: (natToDigits rdbPayload.length ++ [13, 10])) ++ rdbPayload
          ++ (RespValue.bulkString
              (some (strBytes ("+FULLRESYNC 8371b4fb1155b71f4a04d3e1bc3e18c4a990aeeb 0\n")))).to_bytes,
          Storage.new) :=
  c7_psync_amended (strBytes ("PSYNC")) [] Storage.new ⟨6379, none⟩ 0 (by decide) (by decide)

/-- C10: a key argument of ANY Value variant is NOT accepted: a BulkBytes key
whose wire encoding is not valid UTF-8 makes GET panic
(`String::from_utf8(args[0].to_bytes()).unwrap()`) instead of replying. -/
theorem c10_key_counterexample :
    handle_command (strBytes ("get")) [.bulkString (some [255])] Storage.new ⟨6379, none⟩ 0
      = none := rfl

/-- C10 (amended): when the key argument's wire encoding is valid UTF-8, the
keyspace is addressed by exactly that encoding (`RespValue::to_bytes` of the
argument), identically in SET and GET: two keys share a slot iff their
encodings are byte-for-byte equal, and a SET followed by a GET with the same
argument returns the stored value. -/
theorem c10_key_encoding_amended :
    (∀ (st : Storage) (now : Nat) (a b v : RespValue) (e : Option Nat),
      (st.set now a.to_bytes v e).data b.to_bytes
        = if b.to_bytes = a.to_bytes then some ⟨v, now, e⟩ else st.data b.to_bytes)
    ∧ (∀ (a v : RespValue) (st st2 : Storage) (stg : Settings) (now now2 : Nat),
      isValidUtf8 a.to_bytes = true →
      handle_command (strBytes ("set")) [a, v] st stg now
        = some (.simpleString (strBytes ("OK")), st2) →
      handle_command (strBytes ("get")) [a] st2 stg now2 = some (v, st2)) := by
  constructor
  · intro st now a b v e
    unfold Storage.set
    rfl
  · intro a v st st2 stg now now2 hU hset
    rw [handle_set_two a v st stg now hU] at hset
    have hst2 : st2 = st.set now a.to_bytes v none := by
      injection hset with h1
      injection h1 with h2 h3
      exact h3.symm
    subst hst2
    rw [handle_get_eq a _ stg now2 hU]
    unfold Storage.get
    rw [storage_set_data_self]

/-- C10 witness: a SimpleString key — any variant with a UTF-8 wire encoding
works — stored then read back. -/
theorem c10_amended_witness :
    ((Storage.new.set 0 (RespValue.simpleString [97]).to_bytes (.integer 5) none).data
        (RespValue.simpleString [97]).to_bytes
      = if (RespValue.simpleString [97]).to_bytes = (RespValue.simpleString [97]).to_bytes
        then some ⟨.integer 5, 0, none⟩
        else Storage.new.data (RespValue.simpleString [97]).to_bytes)
    ∧ handle_command (strBytes ("get")) [.simpleString [97]]
        (Storage.new.set 0 (RespValue.simpleString [97]).to_bytes (.integer 5) none)
        ⟨6379, none⟩ 9
      = some (.integer 5,
          Storage.new.set 0 (RespValue.simpleString [97]).to_bytes (.integer 5) none) :=
  ⟨c10_key_encoding_amended.1 Storage.new 0 (.simpleString [97]) (.simpleString [97])
      (.integer 5) none,
   c10_key_encoding_amended.2 (.simpleString [97]) (.integer 5) Storage.new
      (Storage.new.set 0 (RespValue.simpleString [97]).to_bytes (.integer 5) none)
      ⟨6379, none⟩ 0 9 (by decide) rfl⟩
